import Mathlib

/-!
Verification development for the time-series technical-indicator and
signal-detection engine of a stock-dashboard repository
(`Dashboard_Functions.py`, `app.py`).

Modelling conventions:
* closing prices and all derived numeric values are exact rationals `ℚ`
  (the Python code computes with IEEE doubles; every claim under study is
  about the algebraic recurrences, not about rounding);
* a pandas float cell that may be NaN is modelled as `Option ℚ`, with
  `none` playing the role of NaN ("no value");
* calendar dates are modelled by their serial day number (`ℕ`), with an
  explicit proleptic-Gregorian encoding `dateSerial` used for concrete
  dates; `pd.date_range(start, end)` over days is then the integer
  interval `[start, end]`;
* a fallible Python operation (a raising index access, a missing
  dataframe column) is modelled by `Option`, `none` marking the raised
  exception.
-/
/-- One step of `Series.ewm(adjust=False).mean()`: given the previous
smoothed value `prev`, each new observation `x` contributes
`α·x + (1-α)·prev`.  Mirrors the pandas recurrence used by
`get_MACD` / `calculate_macd`. -/
def ewmFrom (a prev : ℚ) : List ℚ → List ℚ
  | [] => []
  | x :: xs => (a * x + (1 - a) * prev) :: ewmFrom a (a * x + (1 - a) * prev) xs

/-- `Series.ewm(alpha=a, adjust=False).mean()`: the first observation
seeds the recurrence unchanged. -/
def ewm (a : ℚ) : List ℚ → List ℚ
  | [] => []
  | x :: xs => x :: ewmFrom a x xs

/-- `Series.ewm(span=n, adjust=False).mean()`: pandas translates
`span=n` into the smoothing factor `α = 2/(n+1)`. -/
def ewmSpan (n : ℕ) (xs : List ℚ) : List ℚ :=
  ewm (2 / ((n : ℚ) + 1)) xs

/-- Accumulator form of `Series.ewm(adjust=True).mean()`: with decay
`b = 1 - α`, the adjusted mean at each position is
`num/den` where `num = x + b·num_prev` and `den = 1 + b·den_prev`. -/
def ewmAdjFrom (b num den : ℚ) : List ℚ → List ℚ
  | [] => []
  | x :: xs => ((x + b * num) / (1 + b * den)) :: ewmAdjFrom b (x + b * num) (1 + b * den) xs

/-- `Series.ewm(com=c, adjust=True).mean()` on an all-finite series:
`com=c` means `α = 1/(1+c)`, i.e. decay `b = c/(c+1)`. -/
def ewmCom (c : ℕ) (xs : List ℚ) : List ℚ :=
  ewmAdjFrom ((c : ℚ) / ((c : ℚ) + 1)) 0 0 xs

/-- Positional part of pandas `min_periods=n` masking: entries at
index `i` (counting from `i0`) with fewer than `n` observations so far
become NaN (`none`). -/
def maskFrom (n : ℕ) (i0 : ℕ) : List ℚ → List (Option ℚ)
  | [] => []
  | x :: xs => (if i0 + 1 < n then none else some x) :: maskFrom n (i0 + 1) xs

/-- `min_periods=n` masking of an all-finite column: the first `n-1`
entries are NaN. -/
def maskMin (n : ℕ) (xs : List ℚ) : List (Option ℚ) :=
  maskFrom n 0 xs

/-- `Series.rolling(window=w).mean()` on an all-finite series:
NaN until `w` observations exist, then the plain mean of the last `w`. -/
def rollingMean (w : ℕ) (xs : List ℚ) : List (Option ℚ) :=
  (List.range xs.length).map fun i =>
    if i + 1 < w then none else some (((xs.drop (i + 1 - w)).take w).sum / (w : ℚ))

/-- `Series.diff(1)`: NaN at index 0, `x[t] - x[t-1]` afterwards. -/
def diff1 (xs : List ℚ) : List (Option ℚ) :=
  match xs with
  | [] => []
  | _ :: tail => none :: List.zipWith (fun prev cur => some (cur - prev)) xs tail

/-- `np.where(diff > 0, diff, 0)` under IEEE semantics: a NaN
difference compares false and is replaced by `0`. -/
def upChg (d : Option ℚ) : ℚ :=
  match d with
  | some v => if 0 < v then v else 0
  | none => 0

/-- `np.where(diff < 0, -diff, 0)` under IEEE semantics. -/
def downChg (d : Option ℚ) : ℚ :=
  match d with
  | some v => if v < 0 then -v else 0
  | none => 0

/-- The final RSI formula `100 - 100/(1 + gain/loss)` applied to one
(gain, loss) pair of float cells, folding in the IEEE behaviour of the
division: `NaN` operands propagate, `g/0 = ±∞` collapses the formula
to `100`, and `0/0 = NaN`. -/
def rsiFromAvgs (g l : Option ℚ) : Option ℚ :=
  match g, l with
  | some g, some l =>
      if l = 0 then (if g = 0 then none else some 100)
      else some (100 - 100 / (1 + g / l))
  | _, _ => none

/-- Result columns of `get_MACD` (file `Dashboard_Functions.py`):
`EMA-12`, `EMA-26`, `MACD`, `Signal`, `Histogram`. -/
structure MACDResult where
  ema12 : List ℚ
  ema26 : List ℚ
  macd : List ℚ
  signal : List ℚ
  hist : List ℚ
deriving DecidableEq, Repr

/-- `get_MACD` of `Dashboard_Functions.py`: EMA(12) and EMA(26) of the
close column, their difference `MACD`, the EMA(9) `Signal` of `MACD`,
and the `Histogram` difference. -/
def get_MACD (close : List ℚ) : MACDResult :=
  let e12 := ewmSpan 12 close
  let e26 := ewmSpan 26 close
  let m := List.zipWith (fun a b => a - b) e12 e26
  let s := ewmSpan 9 m
  { ema12 := e12, ema26 := e26, macd := m, signal := s
    hist := List.zipWith (fun a b => a - b) m s }

/-- `get_RSI` of `Dashboard_Functions.py` with `time_window = n`:
Wilder-style smoothing `ewm(com=n-1, min_periods=n, adjust=True)` of
the clipped day-over-day changes, then the RSI formula. -/
def get_RSI (n : ℕ) (close : List ℚ) : List (Option ℚ) :=
  let d := diff1 close
  let upAvg := maskMin n (ewmCom (n - 1) (d.map upChg))
  let downAvg := maskMin n (ewmCom (n - 1) (d.map downChg))
  List.zipWith rsiFromAvgs upAvg downAvg

/-- `calculate_rsi` of `app.py` with `period = n`: plain rolling-mean
smoothing of the clipped day-over-day changes, then the same RSI
formula. -/
def calculate_rsi (n : ℕ) (close : List ℚ) : List (Option ℚ) :=
  let d := diff1 close
  List.zipWith rsiFromAvgs (rollingMean n (d.map upChg)) (rollingMean n (d.map downChg))

/-- `pd.date_range(start, end)` with daily frequency, on serial day
numbers: the inclusive integer interval. -/
def dateRange (start stop : ℕ) : List ℕ :=
  (List.range (stop + 1 - start)).map (fun i => start + i)

/-- `get_closed_dates` of `Dashboard_Functions.py`: spans the calendar
from the first to the last observed date and keeps the days that carry
no observation.  `df['Date'].iloc[0]` raises on an empty frame, hence
`none` for an empty series. -/
def get_closed_dates (dates : List ℕ) : Option (List ℕ) :=
  match dates.head?, dates.getLast? with
  | some first, some last =>
      some ((dateRange first last).filter (fun day => ¬ day ∈ dates))
  | _, _ => none

/-- Whether the year is a Gregorian leap year. -/
def isLeap (y : ℕ) : Bool :=
  y % 4 = 0 && (y % 100 ≠ 0 || y % 400 = 0)

/-- Month lengths of a (leap or common) Gregorian year. -/
def monthLengths (leap : Bool) : List ℕ :=
  [31, if leap then 29 else 28, 31, 30, 31, 30, 31, 31, 30, 31, 30, 31]

/-- Number of leap years in `[1, y-1]`. -/
def leapsBefore (y : ℕ) : ℕ :=
  (y - 1) / 4 + (y - 1) / 400 - (y - 1) / 100

/-- Serial day number of the calendar date `y-m-d` (proleptic
Gregorian, day 0 = January 1 of year 1); consecutive calendar days map
to consecutive serials. -/
def dateSerial (y m d : ℕ) : ℕ :=
  365 * (y - 1) + leapsBefore y + ((monthLengths (isLeap y)).take (m - 1)).sum + (d - 1)

/-- One dataframe row as seen by `get_trading_strategy`: the date, the
`MACD` and `Signal` float cells (possibly NaN), and the close price. -/
structure Row where
  date : ℕ
  macd : Option ℚ
  signal : Option ℚ
  close : ℚ
deriving DecidableEq, Repr

/-- IEEE `>` on two float cells: false whenever either side is NaN. -/
def oGT (x y : Option ℚ) : Bool :=
  match x, y with
  | some a, some b => decide (b < a)
  | _, _ => false

/-- IEEE `<` on two float cells: false whenever either side is NaN. -/
def oLT (x y : Option ℚ) : Bool :=
  match x, y with
  | some a, some b => decide (a < b)
  | _, _ => false

/-- The loop body of `get_trading_strategy`: walks the rows carrying
the boolean `flag` and builds the `Buy` and `Sell` columns (NaN where
no signal fires). -/
def tradeGo (flag : Bool) : List Row → List (Option ℚ) × List (Option ℚ)
  | [] => ([], [])
  | r :: rest =>
    if oGT r.macd r.signal && !flag then
      let p := tradeGo true rest
      (some r.close :: p.1, none :: p.2)
    else if oLT r.macd r.signal && flag then
      let p := tradeGo false rest
      (none :: p.1, some r.close :: p.2)
    else
      let p := tradeGo flag rest
      (none :: p.1, none :: p.2)

/-- `get_trading_strategy` of `Dashboard_Functions.py`: the loop
starts with `flag = False` and returns the `Buy` and `Sell` columns. -/
def get_trading_strategy (rows : List Row) : List (Option ℚ) × List (Option ℚ) :=
  tradeGo false rows

/-- Marker kind of a Buy or Sell event. -/
inductive Kind where
  | Buy
  | Sell
deriving DecidableEq, Repr

/-- A discrete signal marker: the date and close price at which a Buy
or Sell fires. -/
structure Marker where
  date : ℕ
  price : ℚ
  kind : Kind
deriving DecidableEq, Repr

/-- The sparse marker sequence encoded by the `Buy`/`Sell` columns: a
non-NaN `Buy` cell is a Buy marker at that row's date, a non-NaN
`Sell` cell a Sell marker. -/
def markersFrom : List Row → List (Option ℚ) → List (Option ℚ) → List Marker
  | r :: rest, b :: bs, s :: ss =>
    match b, s with
    | some p, _ => { date := r.date, price := p, kind := Kind.Buy } :: markersFrom rest bs ss
    | none, some p => { date := r.date, price := p, kind := Kind.Sell } :: markersFrom rest bs ss
    | none, none => markersFrom rest bs ss
  | _, _, _ => []

/-- The marker sequence emitted by `get_trading_strategy` on a row
list. -/
def strategyMarkers (rows : List Row) : List Marker :=
  markersFrom rows (get_trading_strategy rows).1 (get_trading_strategy rows).2

/-- States of the signal machine described in the specification. -/
inductive SigState where
  | Flat
  | Holding
deriving DecidableEq, Repr

/-- The signal state machine exactly as the specification words it: in
`Flat`, `macd[t] > signalLine[t]` emits a Buy carrying `date[t]` and
`close[t]` and moves to `Holding`; in `Holding`, `macd[t] <
signalLine[t]` emits a Sell and moves back; equality or a no-value at
`t` emits nothing and carries the state forward. -/
def specDetect : SigState → List Row → List Marker
  | _, [] => []
  | SigState.Flat, r :: rest =>
    match r.macd, r.signal with
    | some m, some s =>
      if s < m then
        { date := r.date, price := r.close, kind := Kind.Buy } :: specDetect SigState.Holding rest
      else specDetect SigState.Flat rest
    | _, _ => specDetect SigState.Flat rest
  | SigState.Holding, r :: rest =>
    match r.macd, r.signal with
    | some m, some s =>
      if m < s then
        { date := r.date, price := r.close, kind := Kind.Sell } :: specDetect SigState.Flat rest
      else specDetect SigState.Holding rest
    | _, _ => specDetect SigState.Holding rest

/-- The machine state corresponding to the loop's boolean flag. -/
def stateOf (flag : Bool) : SigState :=
  if flag then SigState.Holding else SigState.Flat

/-- Row list of the dashboard pipeline `get_MACD` then
`get_trading_strategy`: dates are positional, `MACD` and `Signal` come
from `get_MACD`, and the close column is the input itself. -/
def mkRows : List ℕ → List ℚ → List ℚ → List ℚ → List Row
  | d :: ds, m :: ms, s :: ss, c :: cs =>
    { date := d, macd := some m, signal := some s, close := c } :: mkRows ds ms ss cs
  | _, _, _, _ => []

/-- The rows handed to `get_trading_strategy` after `get_MACD` ran on
the close series. -/
def pipelineRows (close : List ℚ) : List Row :=
  mkRows (List.range close.length) (get_MACD close).macd (get_MACD close).signal close

/-- The markers the dashboard pipeline emits on a close series. -/
def pipelineMarkers (close : List ℚ) : List Marker :=
  strategyMarkers (pipelineRows close)

/-- The kind of the first marker the machine can emit from a given
state. -/
def startKind : SigState → Kind
  | SigState.Flat => Kind.Buy
  | SigState.Holding => Kind.Sell

/-- A computed float column viewed as pandas cells: every entry is a
defined (non-NaN) value. -/
def liftCol (xs : List ℚ) : List (Option ℚ) :=
  xs.map some

/-- The cell of a float column at index `t` is "no value" (NaN, or out
of range). -/
def noValueAt (c : List (Option ℚ)) (t : ℕ) : Prop :=
  c.getD t none = none

instance (c : List (Option ℚ)) (t : ℕ) : Decidable (noValueAt c t) := by
  unfold noValueAt; infer_instance

/-- One row of the ingest CSV as far as ordering is concerned: the
instrument ticker, the (serial) date, and a payload column. -/
structure CsvRow where
  ticker : String
  date : ℕ
  close : ℚ
deriving DecidableEq, Repr

/-- The `sort_values(by=["Ticker", "Date"])` key order. -/
def rowKeyLE (a b : CsvRow) : Prop :=
  a.ticker < b.ticker ∨ (a.ticker = b.ticker ∧ a.date ≤ b.date)

instance : DecidableRel rowKeyLE := fun a b => by
  unfold rowKeyLE; infer_instance

instance : IsTotal CsvRow rowKeyLE := by
  constructor
  intro a b
  rcases lt_trichotomy a.ticker b.ticker with h | h | h
  · exact Or.inl (Or.inl h)
  · rcases Nat.le_total a.date b.date with hd | hd
    · exact Or.inl (Or.inr ⟨h, hd⟩)
    · exact Or.inr (Or.inr ⟨h.symm, hd⟩)
  · exact Or.inr (Or.inl h)

instance : IsTrans CsvRow rowKeyLE := by
  constructor
  intro a b c hab hbc
  rcases hab with h1 | ⟨h1, d1⟩
  · rcases hbc with h2 | ⟨h2, d2⟩
    · exact Or.inl (h1.trans h2)
    · exact Or.inl (h2 ▸ h1)
  · rcases hbc with h2 | ⟨h2, d2⟩
    · exact Or.inl (h1 ▸ h2)
    · exact Or.inr ⟨h1.trans h2, d1.trans d2⟩

/-- `load_data` of `app.py`: reads the CSV and silently re-sorts the
rows ascending by `(Ticker, Date)` (`df.sort_values`, modelled as a
sort by that key). -/
def load_data (rows : List CsvRow) : List CsvRow :=
  List.insertionSort rowKeyLE rows

/-- `load_data` of `Dashboard_Functions.py`: reads the CSV and parses
the date column; it neither validates nor reorders the rows. -/
def dashboard_load_data (rows : List CsvRow) : List CsvRow :=
  rows

/-- A pandas dataframe as the `app.py` indicator helpers use it: a
fixed row count and named float columns (cells possibly NaN). -/
structure DFrame where
  nrows : ℕ
  cols : List (String × List (Option ℚ))
deriving DecidableEq, Repr

/-- Column lookup `df[name]`: `none` models the raised `KeyError`. -/
def dfGet (df : DFrame) (c : String) : Option (List (Option ℚ)) :=
  List.lookup c df.cols

/-- Replace-or-append for column assignment. -/
def setCols (c : String) (v : List (Option ℚ)) :
    List (String × List (Option ℚ)) → List (String × List (Option ℚ))
  | [] => [(c, v)]
  | (k, w) :: rest => if k = c then (c, v) :: rest else (k, w) :: setCols c v rest

/-- Column assignment `df[name] = v`. -/
def dfSet (df : DFrame) (c : String) (v : List (Option ℚ)) : DFrame :=
  { df with cols := setCols c v df.cols }

/-- Extract an all-finite column; `none` if any cell is NaN (the
`app.py` indicator helpers are modelled on finite close columns). -/
def seqOpt : List (Option ℚ) → Option (List ℚ)
  | [] => some []
  | none :: _ => none
  | some x :: rest => (seqOpt rest).map (fun l => x :: l)

/-- `calculate_macd` of `app.py`: computes the two EMAs of
`Price Close` locally (without storing them), assigns the `MACD`
column, and assigns the signal line under the column name
`Signal Line`. -/
def app_calculate_macd (df : DFrame) : Option DFrame :=
  match dfGet df "Price Close" with
  | none => none
  | some closeCol =>
    match seqOpt closeCol with
    | none => none
    | some close =>
      let macd := List.zipWith (fun a b => a - b) (ewmSpan 12 close) (ewmSpan 26 close)
      some (dfSet (dfSet df "MACD" (liftCol macd)) "Signal Line" (liftCol (ewmSpan 9 macd)))

/-- `calculate_rsi` of `app.py` at dataframe level: assigns the `RSI`
column. -/
def app_calculate_rsi (df : DFrame) : Option DFrame :=
  match dfGet df "Price Close" with
  | none => none
  | some closeCol =>
    match seqOpt closeCol with
    | none => none
    | some close => some (dfSet df "RSI" (calculate_rsi 14 close))

/-- The loop of `app.py`'s `get_trading_strategy` over the zipped
`MACD`/`Signal` cells: when a signal fires it reads
`df[column].iloc[i]`, whose failure (missing column or row) is
`none`. -/
def appTradeGo (closeCol : List (Option ℚ)) (flag : Bool) (i : ℕ) :
    List (Option ℚ × Option ℚ) → Option (List (Option ℚ) × List (Option ℚ))
  | [] => some ([], [])
  | (m, s) :: rest =>
    if oGT m s && !flag then
      match closeCol[i]?, appTradeGo closeCol true (i + 1) rest with
      | some c, some p => some (c :: p.1, none :: p.2)
      | _, _ => none
    else if oLT m s && flag then
      match closeCol[i]?, appTradeGo closeCol false (i + 1) rest with
      | some c, some p => some (none :: p.1, c :: p.2)
      | _, _ => none
    else
      match appTradeGo closeCol flag (i + 1) rest with
      | some p => some (none :: p.1, none :: p.2)
      | none => none

/-- `get_trading_strategy` of `app.py`: on a non-empty frame the first
loop iteration reads the `MACD` and `Signal` columns (a missing one
raises `KeyError`); on an empty frame the loop never runs and empty
`Buy`/`Sell` columns are assigned. -/
def app_get_trading_strategy (df : DFrame) (col : String) : Option DFrame :=
  if df.nrows = 0 then
    some (dfSet (dfSet df "Buy" []) "Sell" [])
  else
    match dfGet df "MACD", dfGet df "Signal" with
    | some macd, some sig =>
      match appTradeGo ((dfGet df col).getD []) false 0 (macd.zip sig) with
      | some p => some (dfSet (dfSet df "Buy" p.1) "Sell" p.2)
      | none => none
    | _, _ => none

/-- The indicator pipeline exactly as composed at the `app.py` call
site: `calculate_macd`, then `calculate_rsi`, then
`get_trading_strategy` with the default close column. -/
def app_pipeline (df : DFrame) : Option DFrame :=
  match app_calculate_macd df with
  | none => none
  | some df1 =>
    match app_calculate_rsi df1 with
    | none => none
    | some df2 => app_get_trading_strategy df2 "Price Close"

lemma ewmFrom_length (a : ℚ) (xs : List ℚ) : ∀ p : ℚ, (ewmFrom a p xs).length = xs.length := by
  induction xs with
  | nil => intro p; rfl
  | cons x xs ih => intro p; simpa [ewmFrom] using ih _

lemma ewm_length (a : ℚ) (xs : List ℚ) : (ewm a xs).length = xs.length := by
  cases xs with
  | nil => rfl
  | cons x xs => simpa [ewm] using ewmFrom_length a xs x

lemma ewmSpan_length (n : ℕ) (xs : List ℚ) : (ewmSpan n xs).length = xs.length :=
  ewm_length _ xs

lemma get_MACD_lengths (close : List ℚ) :
    (get_MACD close).ema12.length = close.length ∧
    (get_MACD close).ema26.length = close.length ∧
    (get_MACD close).macd.length = close.length ∧
    (get_MACD close).signal.length = close.length ∧
    (get_MACD close).hist.length = close.length := by
  simp [get_MACD, List.length_zipWith, ewmSpan_length, ewm_length]

lemma ewmFrom_getD_succ (a : ℚ) (xs : List ℚ) : ∀ (p : ℚ) (t : ℕ), t + 1 < xs.length →
    (ewmFrom a p xs).getD (t + 1) 0 =
      a * xs.getD (t + 1) 0 + (1 - a) * (ewmFrom a p xs).getD t 0 := by
  induction xs with
  | nil => intro p t h; simp at h
  | cons x xs ih =>
    intro p t h
    cases t with
    | zero =>
      cases xs with
      | nil => simp at h
      | cons y ys => simp [ewmFrom]
    | succ t =>
      have hlt : t + 1 < xs.length := by
        simpa using Nat.lt_of_succ_lt_succ h
      simpa [ewmFrom] using ih (a * x + (1 - a) * p) t hlt

lemma ewm_getD_zero (a : ℚ) (xs : List ℚ) : (ewm a xs).getD 0 0 = xs.getD 0 0 := by
  cases xs <;> rfl

lemma ewm_getD_succ (a : ℚ) (xs : List ℚ) (t : ℕ) (h : t + 1 < xs.length) :
    (ewm a xs).getD (t + 1) 0 = a * xs.getD (t + 1) 0 + (1 - a) * (ewm a xs).getD t 0 := by
  cases xs with
  | nil => simp at h
  | cons x xs =>
    cases t with
    | zero =>
      cases xs with
      | nil => simp at h
      | cons y ys => simp [ewm, ewmFrom]
    | succ t =>
      have hlt : t + 1 < xs.length := by
        simpa using Nat.lt_of_succ_lt_succ h
      simpa [ewm] using ewmFrom_getD_succ a xs x t hlt

lemma zipWith_sub_getD : ∀ (xs ys : List ℚ) (t : ℕ), t < xs.length → t < ys.length →
    (List.zipWith (fun u v => u - v) xs ys).getD t 0 = xs.getD t 0 - ys.getD t 0 := by
  intro xs
  induction xs with
  | nil => intro ys t h _; simp at h
  | cons x xs ih =>
    intro ys t hx hy
    cases ys with
    | nil => simp at hy
    | cons y ys =>
      cases t with
      | zero => simp
      | succ t =>
        have hx2 : t < xs.length := Nat.lt_of_succ_lt_succ hx
        have hy2 : t < ys.length := Nat.lt_of_succ_lt_succ hy
        simpa using ih ys t hx2 hy2

/-- C1: for every non-empty close series, `get_MACD` computes the short
and long EMAs by the recurrence seeded at `close[0]` with smoothing
factors `2/13` and `2/27`, `MACD` is their pointwise difference, the
signal line is the same recurrence with factor `2/10` over the MACD
series seeded at `macd[0]`, and the histogram is `macd - signalLine`
at every index. -/
theorem C1_macd_recurrences (close : List ℚ) (hne : close ≠ []) :
    ((get_MACD close).ema12.getD 0 0 = close.getD 0 0 ∧
      ∀ t, t + 1 < close.length →
        (get_MACD close).ema12.getD (t + 1) 0 =
          2 / 13 * close.getD (t + 1) 0 + (1 - 2 / 13) * (get_MACD close).ema12.getD t 0) ∧
    ((get_MACD close).ema26.getD 0 0 = close.getD 0 0 ∧
      ∀ t, t + 1 < close.length →
        (get_MACD close).ema26.getD (t + 1) 0 =
          2 / 27 * close.getD (t + 1) 0 + (1 - 2 / 27) * (get_MACD close).ema26.getD t 0) ∧
    (∀ t, t < close.length →
      (get_MACD close).macd.getD t 0 =
        (get_MACD close).ema12.getD t 0 - (get_MACD close).ema26.getD t 0) ∧
    ((get_MACD close).signal.getD 0 0 = (get_MACD close).macd.getD 0 0 ∧
      ∀ t, t + 1 < close.length →
        (get_MACD close).signal.getD (t + 1) 0 =
          2 / 10 * (get_MACD close).macd.getD (t + 1) 0 +
            (1 - 2 / 10) * (get_MACD close).signal.getD t 0) ∧
    (∀ t, t < close.length →
      (get_MACD close).hist.getD t 0 =
        (get_MACD close).macd.getD t 0 - (get_MACD close).signal.getD t 0) := by
  have h12 : ∀ xs : List ℚ, ewmSpan 12 xs = ewm (2 / 13) xs := by
    intro xs; unfold ewmSpan; norm_num
  have h26 : ∀ xs : List ℚ, ewmSpan 26 xs = ewm (2 / 27) xs := by
    intro xs; unfold ewmSpan; norm_num
  have h9 : ∀ xs : List ℚ, ewmSpan 9 xs = ewm (2 / 10) xs := by
    intro xs; unfold ewmSpan; norm_num
  have hm : (get_MACD close).macd.length = close.length :=
    (get_MACD_lengths close).2.2.1
  refine ⟨⟨?_, ?_⟩, ⟨?_, ?_⟩, ?_, ⟨?_, ?_⟩, ?_⟩
  · simpa [get_MACD, h12] using ewm_getD_zero (2 / 13) close
  · intro t ht
    simpa [get_MACD, h12] using ewm_getD_succ (2 / 13) close t ht
  · simpa [get_MACD, h26] using ewm_getD_zero (2 / 27) close
  · intro t ht
    simpa [get_MACD, h26] using ewm_getD_succ (2 / 27) close t ht
  · intro t ht
    have h1 : t < (ewmSpan 12 close).length := by rw [ewmSpan_length]; exact ht
    have h2 : t < (ewmSpan 26 close).length := by rw [ewmSpan_length]; exact ht
    simpa [get_MACD] using zipWith_sub_getD (ewmSpan 12 close) (ewmSpan 26 close) t h1 h2
  · simpa [get_MACD, h9, h12, h26] using ewm_getD_zero (2 / 10) (get_MACD close).macd
  · intro t ht
    have ht2 : t + 1 < (get_MACD close).macd.length := by rw [hm]; exact ht
    simpa [get_MACD, h9, h12, h26] using ewm_getD_succ (2 / 10) (get_MACD close).macd t ht2
  · intro t ht
    have h1 : t < (get_MACD close).macd.length := by rw [hm]; exact ht
    have h2 : t < (get_MACD close).signal.length := by
      rw [(get_MACD_lengths close).2.2.2.1]; exact ht
    simpa [get_MACD] using
      zipWith_sub_getD (get_MACD close).macd (get_MACD close).signal t h1 h2

/-- Witness for C1 at the concrete close series `[1, 2, 3]`. -/
theorem C1_macd_recurrences_witness :
    (get_MACD [(1 : ℚ), 2, 3]).ema12.getD 1 0 =
      2 / 13 * (2 : ℚ) + (1 - 2 / 13) * (get_MACD [(1 : ℚ), 2, 3]).ema12.getD 0 0 := by
  have h := (C1_macd_recurrences [(1 : ℚ), 2, 3] (by decide)).1.2 0 (by decide)
  simpa using h

lemma trade_markers_eq : ∀ (rows : List Row) (flag : Bool),
    markersFrom rows (tradeGo flag rows).1 (tradeGo flag rows).2 = specDetect (stateOf flag) rows := by
  intro rows
  induction rows with
  | nil => intro flag; cases flag <;> rfl
  | cons r rest ih =>
    intro flag
    obtain ⟨d, om, os, c⟩ := r
    cases om with
    | none =>
      cases flag <;>
        simp [tradeGo, oGT, oLT, specDetect, markersFrom, stateOf, ih]
    | some m =>
      cases os with
      | none =>
        cases flag <;>
          simp [tradeGo, oGT, oLT, specDetect, markersFrom, stateOf, ih]
      | some s =>
        cases flag with
        | false =>
          by_cases hlt : s < m <;>
            simp [tradeGo, oGT, oLT, hlt, specDetect, markersFrom, stateOf, ih]
        | true =>
          by_cases hlt : m < s <;>
            simp [tradeGo, oGT, oLT, hlt, specDetect, markersFrom, stateOf, ih]

/-- C2: `get_trading_strategy` emits, marker for marker, exactly the
output of the specified two-state machine: starting `Flat`, a strict
`macd > signal` crossover while `Flat` emits a Buy carrying that row's
date and close and moves to `Holding`; a strict `macd < signal`
crossover while `Holding` emits a Sell and returns to `Flat`; equality
or a NaN on either side emits nothing and keeps the state. -/
theorem C2_detector_is_spec_machine (rows : List Row) :
    strategyMarkers rows = specDetect SigState.Flat rows := by
  simpa [strategyMarkers, get_trading_strategy, stateOf] using trade_markers_eq rows false

lemma specDetect_chain (rows : List Row) : ∀ st : SigState,
    List.Chain' (fun a b => a.kind ≠ b.kind) (specDetect st rows) ∧
      (∀ m, (specDetect st rows).head? = some m → m.kind = startKind st) := by
  induction rows with
  | nil => intro st; cases st <;> simp [specDetect]
  | cons r rest ih =>
    intro st
    obtain ⟨d, om, os, c⟩ := r
    cases om with
    | none => cases st <;> simpa [specDetect] using ih _
    | some m =>
      cases os with
      | none => cases st <;> simpa [specDetect] using ih _
      | some s =>
        cases st with
        | Flat =>
          by_cases hlt : s < m
          · have hred : specDetect SigState.Flat
                ({ date := d, macd := some m, signal := some s, close := c } :: rest) =
                { date := d, price := c, kind := Kind.Buy } :: specDetect SigState.Holding rest := by
              simp [specDetect, hlt]
            refine ⟨?_, ?_⟩
            · rw [hred, List.chain'_cons']
              refine ⟨?_, (ih SigState.Holding).1⟩
              intro y hy
              have := (ih SigState.Holding).2 y (by simpa using hy)
              simp [this, startKind]
            · intro mk hmk
              rw [hred] at hmk
              simp at hmk
              simp [← hmk, startKind]
          · simpa [specDetect, hlt] using ih SigState.Flat
        | Holding =>
          by_cases hlt : m < s
          · have hred : specDetect SigState.Holding
                ({ date := d, macd := some m, signal := some s, close := c } :: rest) =
                { date := d, price := c, kind := Kind.Sell } :: specDetect SigState.Flat rest := by
              simp [specDetect, hlt]
            refine ⟨?_, ?_⟩
            · rw [hred, List.chain'_cons']
              refine ⟨?_, (ih SigState.Flat).1⟩
              intro y hy
              have := (ih SigState.Flat).2 y (by simpa using hy)
              simp [this, startKind]
            · intro mk hmk
              rw [hred] at hmk
              simp at hmk
              simp [← hmk, startKind]
          · simpa [specDetect, hlt] using ih SigState.Holding

lemma specDetect_dates_sublist (rows : List Row) : ∀ st : SigState,
    List.Sublist ((specDetect st rows).map (fun m => m.date)) (rows.map (fun r => r.date)) := by
  induction rows with
  | nil => intro st; cases st <;> simp [specDetect]
  | cons r rest ih =>
    intro st
    obtain ⟨d, om, os, c⟩ := r
    cases om with
    | none => cases st <;> exact List.Sublist.cons _ (by simpa [specDetect] using ih _)
    | some m =>
      cases os with
      | none => cases st <;> exact List.Sublist.cons _ (by simpa [specDetect] using ih _)
      | some s =>
        cases st with
        | Flat =>
          by_cases hlt : s < m
          · simpa [specDetect, hlt] using List.Sublist.cons₂ d (ih SigState.Holding)
          · exact List.Sublist.cons _ (by simpa [specDetect, hlt] using ih SigState.Flat)
        | Holding =>
          by_cases hlt : m < s
          · simpa [specDetect, hlt] using List.Sublist.cons₂ d (ih SigState.Flat)
          · exact List.Sublist.cons _ (by simpa [specDetect, hlt] using ih SigState.Holding)

/-- C3: on any row list with pairwise-distinct dates, the emitted
marker sequence has pairwise-distinct dates (at most one marker per
date) and strictly alternates in kind: adjacent markers never share a
kind. -/
theorem C3_markers_alternate (rows : List Row)
    (hdates : rows.Pairwise (fun a b => a.date ≠ b.date)) :
    List.Chain' (fun a b => a.kind ≠ b.kind) (strategyMarkers rows) ∧
      (strategyMarkers rows).Pairwise (fun a b => a.date ≠ b.date) := by
  have heq : strategyMarkers rows = specDetect SigState.Flat rows := by
    simpa [strategyMarkers, get_trading_strategy, stateOf] using trade_markers_eq rows false
  constructor
  · rw [heq]; exact (specDetect_chain rows SigState.Flat).1
  · rw [heq]
    have hsub := specDetect_dates_sublist rows SigState.Flat
    have hp : (rows.map (fun r => r.date)).Pairwise (fun a b => a ≠ b) :=
      List.pairwise_map.2 hdates
    exact List.pairwise_map.1 (List.Pairwise.sublist hsub hp)

lemma rsi_mask_warmup (n : ℕ) : ∀ (us ds : List ℚ) (i t : ℕ), i + t + 1 < n →
    (List.zipWith rsiFromAvgs (maskFrom n i us) (maskFrom n i ds)).getD t none = none := by
  intro us
  induction us with
  | nil => intro ds i t h; simp [maskFrom]
  | cons u us ih =>
    intro ds i t h
    cases ds with
    | nil => simp [maskFrom]
    | cons d ds =>
      cases t with
      | zero =>
        have hi : i + 1 < n := by omega
        simp [maskFrom, hi, rsiFromAvgs]
      | succ t =>
        have h2 : (i + 1) + t + 1 < n := by omega
        simpa [maskFrom] using ih ds (i + 1) t h2

lemma get_RSI_warmup (n : ℕ) (close : List ℚ) (t : ℕ) (h : t + 1 < n) :
    (get_RSI n close).getD t none = none := by
  unfold get_RSI maskMin
  exact rsi_mask_warmup n _ _ 0 t (by omega)

lemma liftCol_getD (xs : List ℚ) (t : ℕ) (h : t < xs.length) :
    (liftCol xs).getD t none = some (xs.getD t 0) := by
  unfold liftCol
  rw [List.getD_eq_getElem?_getD, List.getElem?_map, List.getD_eq_getElem?_getD,
    List.getElem?_eq_getElem h]
  simp

lemma ewmAdjFrom_length (b : ℚ) (xs : List ℚ) :
    ∀ num den : ℚ, (ewmAdjFrom b num den xs).length = xs.length := by
  induction xs with
  | nil => intro num den; rfl
  | cons x xs ih => intro num den; simpa [ewmAdjFrom] using ih _ _

lemma maskFrom_length (n : ℕ) (xs : List ℚ) : ∀ i : ℕ, (maskFrom n i xs).length = xs.length := by
  induction xs with
  | nil => intro i; rfl
  | cons x xs ih => intro i; simpa [maskFrom] using ih _

lemma diff1_length (xs : List ℚ) : (diff1 xs).length = xs.length := by
  cases xs with
  | nil => rfl
  | cons x tail => simp [diff1, List.length_zipWith]

lemma get_RSI_length (n : ℕ) (close : List ℚ) : (get_RSI n close).length = close.length := by
  simp [get_RSI, maskMin, List.length_zipWith, maskFrom_length, ewmCom,
    ewmAdjFrom_length, diff1_length]

/-- C4 counterexample: on the one-observation series `[1]` (fewer than
26 points), the long-EMA column is not "no value" at index 0 — the
`adjust=False` recurrence seeds it with `close[0]` immediately. -/
theorem C4_counterexample :
    [(1 : ℚ)].length < 26 ∧ ¬ noValueAt (liftCol (get_MACD [(1 : ℚ)]).ema26) 0 := by
  decide

/-- C4 amended: the RSI column is "no value" at every index before its
14-sample warm-up has elapsed, but the EMA-derived columns (short and
long EMA, MACD, signal line, histogram) carry a defined value at every
in-range index — even when the series has fewer than 26 observations —
and a short series is not an error: every field is still produced,
with the RSI column of full input length. -/
theorem C4_amended (close : List ℚ) :
    (∀ t, t + 1 < 14 → noValueAt (get_RSI 14 close) t) ∧
    (∀ t, t < close.length → ¬ noValueAt (liftCol (get_MACD close).ema12) t) ∧
    (∀ t, t < close.length → ¬ noValueAt (liftCol (get_MACD close).ema26) t) ∧
    (∀ t, t < close.length → ¬ noValueAt (liftCol (get_MACD close).macd) t) ∧
    (∀ t, t < close.length → ¬ noValueAt (liftCol (get_MACD close).signal) t) ∧
    (∀ t, t < close.length → ¬ noValueAt (liftCol (get_MACD close).hist) t) ∧
    (get_RSI 14 close).length = close.length := by
  obtain ⟨l1, l2, l3, l4, l5⟩ := get_MACD_lengths close
  refine ⟨fun t ht => get_RSI_warmup 14 close t ht, ?_, ?_, ?_, ?_, ?_, get_RSI_length 14 close⟩
  · intro t ht
    rw [noValueAt, liftCol_getD _ t (by rw [l1]; exact ht)]
    simp
  · intro t ht
    rw [noValueAt, liftCol_getD _ t (by rw [l2]; exact ht)]
    simp
  · intro t ht
    rw [noValueAt, liftCol_getD _ t (by rw [l3]; exact ht)]
    simp
  · intro t ht
    rw [noValueAt, liftCol_getD _ t (by rw [l4]; exact ht)]
    simp
  · intro t ht
    rw [noValueAt, liftCol_getD _ t (by rw [l5]; exact ht)]
    simp

/-- Witness for C4 (amended) at the concrete close series `[1, 2]`. -/
theorem C4_amended_witness :
    noValueAt (get_RSI 14 [(1 : ℚ), 2]) 0 ∧
      ¬ noValueAt (liftCol (get_MACD [(1 : ℚ), 2]).ema26) 1 :=
  ⟨(C4_amended [(1 : ℚ), 2]).1 0 (by decide),
    (C4_amended [(1 : ℚ), 2]).2.2.1 1 (by decide)⟩

lemma mem_dateRange (f l d : ℕ) : d ∈ dateRange f l ↔ f ≤ d ∧ d ≤ l := by
  simp only [dateRange, List.mem_map, List.mem_range]
  constructor
  · rintro ⟨i, hi, rfl⟩
    omega
  · rintro ⟨h1, h2⟩
    exact ⟨d - f, by omega, by omega⟩

/-- C5: `get_closed_dates` returns exactly the days between the first
and the last observed date (inclusive) that carry no observation; on a
gap-free span it returns the empty list, and on January 1-10 of 2024
with the 6th and 7th missing it returns exactly those two dates. -/
theorem C5_closed_dates :
    (∀ dates : List ℕ, dates ≠ [] →
      ∃ f l res, dates.head? = some f ∧ dates.getLast? = some l ∧
        get_closed_dates dates = some res ∧
        ∀ d, d ∈ res ↔ f ≤ d ∧ d ≤ l ∧ ¬ d ∈ dates) ∧
    get_closed_dates
      [dateSerial 2024 1 1, dateSerial 2024 1 2, dateSerial 2024 1 3,
       dateSerial 2024 1 4, dateSerial 2024 1 5] = some [] ∧
    get_closed_dates
      [dateSerial 2024 1 1, dateSerial 2024 1 2, dateSerial 2024 1 3,
       dateSerial 2024 1 4, dateSerial 2024 1 5, dateSerial 2024 1 8,
       dateSerial 2024 1 9, dateSerial 2024 1 10] =
      some [dateSerial 2024 1 6, dateSerial 2024 1 7] := by
  refine ⟨?_, by decide, by decide⟩
  intro dates hne
  cases dates with
  | nil => exact absurd rfl hne
  | cons d0 ds =>
    have hlast : (d0 :: ds).getLast? = some ((d0 :: ds).getLast (by simp)) :=
      List.getLast?_eq_getLast _ (by simp)
    refine ⟨d0, (d0 :: ds).getLast (by simp),
      (dateRange d0 ((d0 :: ds).getLast (by simp))).filter
        (fun day => ¬ day ∈ (d0 :: ds)),
      rfl, hlast, ?_, ?_⟩
    · simp only [get_closed_dates, List.head?_cons, hlast]
    · intro d
      simp only [List.mem_filter, mem_dateRange, decide_eq_true_eq]
      tauto

/-- Witness for C5 at the concrete two-observation series
`[737000, 737002]`. -/
theorem C5_closed_dates_witness :
    ∃ f l res, ([737000, 737002] : List ℕ).head? = some f ∧
      ([737000, 737002] : List ℕ).getLast? = some l ∧
      get_closed_dates [737000, 737002] = some res ∧
      ∀ d, d ∈ res ↔ f ≤ d ∧ d ≤ l ∧ ¬ d ∈ ([737000, 737002] : List ℕ) :=
  C5_closed_dates.1 [737000, 737002] (by decide)

/-- C6 counterexample: on an empty series `get_closed_dates` does not
return an empty result — it fails (the Python reads
`df['Date'].iloc[0]`, which raises on an empty frame). -/
theorem C6_counterexample : get_closed_dates ([] : List ℕ) = none :=
  rfl

/-- C6 amended: on an empty input the indicator computations and the
signal detector return empty outputs without error, but
`get_closed_dates` raises (it reads the first observed date). -/
theorem C6_amended :
    get_MACD [] = { ema12 := [], ema26 := [], macd := [], signal := [], hist := [] } ∧
    get_RSI 14 [] = [] ∧
    get_trading_strategy [] = ([], []) ∧
    strategyMarkers [] = [] ∧
    get_closed_dates ([] : List ℕ) = none := by
  exact ⟨rfl, rfl, rfl, rfl, rfl⟩

/-- C7 counterexample: the two-row input with descending dates is not
rejected — `load_data` silently re-sorts it. -/
theorem C7_counterexample :
    load_data [{ ticker := "A", date := 2, close := 2 }, { ticker := "A", date := 1, close := 1 }] =
      [{ ticker := "A", date := 1, close := 1 }, { ticker := "A", date := 2, close := 2 }] ∧
    ([{ ticker := "A", date := 1, close := 1 }, { ticker := "A", date := 2, close := 2 }] :
        List CsvRow) ≠
      [{ ticker := "A", date := 2, close := 2 }, { ticker := "A", date := 1, close := 1 }] := by
  constructor
  · simp [load_data, List.insertionSort, List.orderedInsert, rowKeyLE, String.lt_irrefl]
  · decide

/-- C7 amended: construction never rejects: `app.py`'s `load_data`
returns a permutation of its input silently re-sorted ascending by
`(Ticker, Date)` — so duplicates survive and nothing is dropped — and
`Dashboard_Functions.py`'s `load_data` returns the rows unchanged,
with no validation at all. -/
theorem C7_amended (rows : List CsvRow) :
    List.Perm (load_data rows) rows ∧ List.Sorted rowKeyLE (load_data rows) ∧
      dashboard_load_data rows = rows :=
  ⟨List.perm_insertionSort rowKeyLE rows, List.sorted_insertionSort rowKeyLE rows, rfl⟩

/-- C8: the Wilder-style `get_RSI` and the rolling-mean
`calculate_rsi` are not numerically interchangeable: on this
15-observation series both produce a defined RSI at index 14 (past
both warm-ups) and the two values differ. -/
theorem C8_rsi_variants_differ :
    ∃ (close : List ℚ) (t : ℕ) (a b : ℚ), 14 ≤ t ∧
      (get_RSI 14 close).getD t none = some a ∧
      (calculate_rsi 14 close).getD t none = some b ∧ a ≠ b := by
  refine ⟨[10, 11, 10, 11, 10, 11, 10, 11, 10, 11, 10, 11, 10, 11, 12], 14,
    141605548883981900 / 2391543479952909, 400 / 7, by norm_num, ?_, ?_, by norm_num⟩
  · norm_num [get_RSI, diff1, upChg, downChg, ewmCom, ewmAdjFrom, maskMin, maskFrom,
      rsiFromAvgs, List.zipWith]
  · norm_num [calculate_rsi, diff1, upChg, downChg, rollingMean, rsiFromAvgs,
      List.zipWith, List.range_succ]

lemma ewmFrom_forall2 (al be : ℚ) (hba : be < al) (ha1 : al ≤ 1) :
    ∀ (xs : List ℚ) (prev a b : ℚ),
      List.Chain' (fun u v => u < v) (prev :: xs) →
      b ≤ a → a ≤ prev → b ≤ prev →
      List.Forall₂ (fun u v => u < v) (ewmFrom be b xs) (ewmFrom al a xs) := by
  intro xs
  induction xs with
  | nil => intro prev a b _ _ _ _; simp [ewmFrom]
  | cons x rest ih =>
    intro prev a b hch hba2 hap hbp
    have hpx : prev < x := (List.chain'_cons.1 hch).1
    have hch2 : List.Chain' (fun u v => u < v) (x :: rest) := (List.chain'_cons.1 hch).2
    have hbe1 : be ≤ 1 := le_of_lt (lt_of_lt_of_le hba ha1)
    have hax : a ≤ x := le_trans hap (le_of_lt hpx)
    have hbx : b ≤ x := le_trans hbp (le_of_lt hpx)
    have key : be * x + (1 - be) * b < al * x + (1 - al) * a := by
      nlinarith [mul_pos (sub_pos.2 hba) (sub_pos.2 (lt_of_le_of_lt hbp hpx)),
        mul_nonneg (sub_nonneg.2 ha1) (sub_nonneg.2 hba2)]
    have hanew : al * x + (1 - al) * a ≤ x := by
      nlinarith [mul_nonneg (sub_nonneg.2 ha1) (sub_nonneg.2 hax)]
    have hbnew : be * x + (1 - be) * b ≤ x := by
      nlinarith [mul_nonneg (sub_nonneg.2 hbe1) (sub_nonneg.2 hbx)]
    simp only [ewmFrom]
    exact List.Forall₂.cons key (ih x _ _ hch2 (le_of_lt key) hanew hbnew)

lemma forall2_lt_getD {as bs : List ℚ} (h : List.Forall₂ (fun u v => u < v) as bs) :
    ∀ t, t < as.length → as.getD t 0 < bs.getD t 0 := by
  induction h with
  | nil => intro t ht; simp at ht
  | cons hr hrest ih =>
    intro t ht
    cases t with
    | zero => simpa using hr
    | succ t => simpa using ih t (by simpa using Nat.lt_of_succ_lt_succ ht)

set_option maxHeartbeats 4000000 in
/-- C9 counterexample: on this strictly increasing 16-point close
series the pipeline emits a Sell marker (after the Buy), because the
MACD decays toward zero on the near-flat stretch and crosses below its
own signal line. -/
theorem C9_counterexample :
    List.Chain' (fun u v => u < v)
      [(1 : ℚ), 1000, 1001, 1002, 1003, 1004, 1005, 1006, 1007, 1008, 1009, 1010, 1011, 1012,
        1013, 1014] ∧
      ∃ m ∈ pipelineMarkers
        [(1 : ℚ), 1000, 1001, 1002, 1003, 1004, 1005, 1006, 1007, 1008, 1009, 1010, 1011, 1012,
          1013, 1014], m.kind = Kind.Sell := by
  constructor
  · norm_num [List.chain'_cons, List.chain'_singleton]
  · have hr : List.range 16 = [0, 1, 2, 3, 4, 5, 6, 7, 8, 9, 10, 11, 12, 13, 14, 15] := rfl
    norm_num [pipelineMarkers, strategyMarkers, get_trading_strategy, pipelineRows, mkRows,
      get_MACD, ewmSpan, ewm, ewmFrom, tradeGo, oGT, oLT, markersFrom, hr, List.zipWith]

/-- C9 amended: on every strictly increasing close series the short
EMA strictly exceeds the long EMA at every index past the seed, hence
MACD is strictly positive there; and the first marker the pipeline can
emit, if any, is a Buy.  (The original claim's "at most one Buy and no
Sell after it" fails: see the counterexample.) -/
theorem C9_amended (close : List ℚ)
    (hmono : List.Chain' (fun u v => u < v) close) :
    (∀ t, t + 1 < close.length →
      (get_MACD close).ema26.getD (t + 1) 0 < (get_MACD close).ema12.getD (t + 1) 0 ∧
        0 < (get_MACD close).macd.getD (t + 1) 0) ∧
    ∀ m, (pipelineMarkers close).head? = some m → m.kind = Kind.Buy := by
  constructor
  · intro t ht
    cases close with
    | nil => simp at ht
    | cons x xs =>
      have h12 : ∀ ys : List ℚ, ewmSpan 12 ys = ewm (2 / 13) ys := by
        intro ys; unfold ewmSpan; norm_num
      have h26 : ∀ ys : List ℚ, ewmSpan 26 ys = ewm (2 / 27) ys := by
        intro ys; unfold ewmSpan; norm_num
      have hf := ewmFrom_forall2 (2 / 13) (2 / 27) (by norm_num) (by norm_num) xs x x x
        hmono le_rfl le_rfl le_rfl
      have htx : t < xs.length := by simpa using Nat.lt_of_succ_lt_succ ht
      have hlt := forall2_lt_getD hf t (by rw [ewmFrom_length]; exact htx)
      have he26 : (get_MACD (x :: xs)).ema26.getD (t + 1) 0 = (ewmFrom (2 / 27) x xs).getD t 0 := by
        simp [get_MACD, h26, ewm]
      have he12 : (get_MACD (x :: xs)).ema12.getD (t + 1) 0 = (ewmFrom (2 / 13) x xs).getD t 0 := by
        simp [get_MACD, h12, ewm]
      have hb1 : t + 1 < (ewmSpan 12 (x :: xs)).length := by
        rw [ewmSpan_length]; exact ht
      have hb2 : t + 1 < (ewmSpan 26 (x :: xs)).length := by
        rw [ewmSpan_length]; exact ht
      have hm : (get_MACD (x :: xs)).macd.getD (t + 1) 0 =
          (get_MACD (x :: xs)).ema12.getD (t + 1) 0 -
            (get_MACD (x :: xs)).ema26.getD (t + 1) 0 := by
        simpa [get_MACD] using
          zipWith_sub_getD (ewmSpan 12 (x :: xs)) (ewmSpan 26 (x :: xs)) (t + 1) hb1 hb2
      refine ⟨by rw [he26, he12]; exact hlt, ?_⟩
      rw [hm, he26, he12]
      linarith [hlt]
  · intro m hm
    have heq : pipelineMarkers close = specDetect SigState.Flat (pipelineRows close) := by
      simpa [pipelineMarkers, strategyMarkers, get_trading_strategy, stateOf] using
        trade_markers_eq (pipelineRows close) false
    have hk := (specDetect_chain (pipelineRows close) SigState.Flat).2 m (heq ▸ hm)
    simpa [startKind] using hk

/-- Witness for C9 (amended) at the concrete close series `[1, 2, 3]`. -/
theorem C9_amended_witness : 0 < (get_MACD [(1 : ℚ), 2, 3]).macd.getD 1 0 :=
  ((C9_amended [(1 : ℚ), 2, 3]
      (by norm_num [List.chain'_cons, List.chain'_singleton])).1 0 (by norm_num)).2

lemma lookup_setCols (c d : String) (v : List (Option ℚ)) (h : ¬ d = c) :
    ∀ cols : List (String × List (Option ℚ)),
      List.lookup d (setCols c v cols) = List.lookup d cols := by
  have hueq : (d == c) = false := beq_eq_false_iff_ne.2 h
  intro cols
  induction cols with
  | nil => simp [setCols, List.lookup, hueq]
  | cons kv rest ih =>
    obtain ⟨k, w⟩ := kv
    by_cases hk : k = c
    · subst hk
      simp [setCols, List.lookup, hueq]
    · simp only [setCols, if_neg hk, List.lookup]
      by_cases hdk : d = k
      · simp [hdk]
      · have : (d == k) = false := beq_eq_false_iff_ne.2 hdk
        simp [this, ih]

lemma dfGet_dfSet_ne (df : DFrame) (c d : String) (v : List (Option ℚ)) (h : ¬ d = c) :
    dfGet (dfSet df c v) d = dfGet df d :=
  lookup_setCols c d v h df.cols

/-- C10: `calculate_macd` stores the signal line under `Signal Line`
while `get_trading_strategy` reads `Signal`; hence on every non-empty
well-formed input frame (a finite `Price Close` column and no
pre-existing `Signal` column) the call-site composition
`calculate_macd`, `calculate_rsi`, `get_trading_strategy` fails with a
missing-key lookup instead of producing `Buy`/`Sell` outputs. -/
theorem C10_pipeline_key_error (df : DFrame) (closeCol : List (Option ℚ)) (close : List ℚ)
    (hn : ¬ df.nrows = 0)
    (hclose : dfGet df "Price Close" = some closeCol)
    (hfin : seqOpt closeCol = some close)
    (hnosig : dfGet df "Signal" = none) :
    app_pipeline df = none := by
  have h1 : app_calculate_macd df =
      some (dfSet (dfSet df "MACD"
          (liftCol (List.zipWith (fun a b => a - b) (ewmSpan 12 close) (ewmSpan 26 close))))
        "Signal Line"
        (liftCol (ewmSpan 9
          (List.zipWith (fun a b => a - b) (ewmSpan 12 close) (ewmSpan 26 close))))) := by
    simp [app_calculate_macd, hclose, hfin]
  have h1c : dfGet (dfSet (dfSet df "MACD"
      (liftCol (List.zipWith (fun a b => a - b) (ewmSpan 12 close) (ewmSpan 26 close))))
      "Signal Line"
      (liftCol (ewmSpan 9
        (List.zipWith (fun a b => a - b) (ewmSpan 12 close) (ewmSpan 26 close)))))
      "Price Close" = some closeCol := by
    rw [dfGet_dfSet_ne _ _ _ _ (by decide), dfGet_dfSet_ne _ _ _ _ (by decide)]
    exact hclose
  have h2sig : dfGet (dfSet (dfSet (dfSet df "MACD"
      (liftCol (List.zipWith (fun a b => a - b) (ewmSpan 12 close) (ewmSpan 26 close))))
      "Signal Line"
      (liftCol (ewmSpan 9
        (List.zipWith (fun a b => a - b) (ewmSpan 12 close) (ewmSpan 26 close)))))
      "RSI" (calculate_rsi 14 close)) "Signal" = none := by
    rw [dfGet_dfSet_ne _ _ _ _ (by decide), dfGet_dfSet_ne _ _ _ _ (by decide),
      dfGet_dfSet_ne _ _ _ _ (by decide)]
    exact hnosig
  have hnr : ∀ (d : DFrame) (c : String) (v : List (Option ℚ)), (dfSet d c v).nrows = d.nrows :=
    fun _ _ _ => rfl
  simp only [app_pipeline, h1]
  simp only [app_calculate_rsi, h1c, hfin]
  simp only [app_get_trading_strategy, hnr, hn, if_false]
  rw [h2sig]
  cases dfGet (dfSet (dfSet (dfSet df "MACD"
      (liftCol (List.zipWith (fun a b => a - b) (ewmSpan 12 close) (ewmSpan 26 close))))
      "Signal Line"
      (liftCol (ewmSpan 9
        (List.zipWith (fun a b => a - b) (ewmSpan 12 close) (ewmSpan 26 close)))))
      "RSI" (calculate_rsi 14 close)) "MACD" <;> rfl

/-- Witness for C10 at a one-row frame holding only a finite
`Price Close` column. -/
theorem C10_pipeline_key_error_witness :
    app_pipeline { nrows := 1, cols := [("Price Close", [some 1])] } = none :=
  C10_pipeline_key_error { nrows := 1, cols := [("Price Close", [some 1])] }
    [some 1] [1] (by decide) (by rfl) (by rfl) (by rfl)

/-- Witness for C3 at a concrete two-row input that fires a Buy and a
Sell. -/
theorem C3_markers_alternate_witness :
    List.Chain' (fun a b => a.kind ≠ b.kind)
      (strategyMarkers
        [{ date := 0, macd := some 1, signal := some 0, close := 5 },
         { date := 1, macd := some 0, signal := some 1, close := 6 }]) ∧
      (strategyMarkers
        [{ date := 0, macd := some 1, signal := some 0, close := 5 },
         { date := 1, macd := some 0, signal := some 1, close := 6 }]).Pairwise
        (fun a b => a.date ≠ b.date) :=
  C3_markers_alternate
    [{ date := 0, macd := some 1, signal := some 0, close := 5 },
     { date := 1, macd := some 0, signal := some 1, close := 6 }]
    (by decide)
